import Mathlib

set_option maxRecDepth 10000

/-!
Shallow embedding of the substring-search library in src/src/lib.rs:
the free functions linear_search, border_table, kmp_search,
bad_character_table and bmh_search, plus the memoizing handles
KMPPattern and BMHPattern.

Rust slice indexing xs[i] panics when i is out of range; that is
modelled by reading with getElem? and returning RRes.panic when the
read misses.  The assert_eq! at the end of border_table is modelled as
RRes.panic PanicKind.assertFail.  Debug-build usize subtraction
overflow is modelled as RRes.panic PanicKind.subUnderflow.  Loops
whose termination is not structurally evident carry explicit fuel;
RRes.diverge means the fuel ran out, so a proof that a run yields
RRes.ok is also a proof that the fuel bound was enough.  Generic
elements are any type with decidable equality; bytes are Nat values
(below 256 in the Rust code).
-/

/-- The ways a Rust panic can arise in this library. -/
inductive PanicKind : Type where
  | textIdx
  | patIdx
  | tableIdx
  | bordersIdx
  | assertFail
  | subUnderflow
deriving DecidableEq, Repr

/-- Outcome of running a piece of the Rust code: a value, a panic, or
fuel exhaustion (possible divergence). -/
inductive RRes (α : Type) : Type where
  | ok (val : α)
  | panic (k : PanicKind)
  | diverge
deriving DecidableEq, Repr

variable {α : Type} [DecidableEq α]

/-- Outcome of the inner for-loop of linear_search at one candidate
start. -/
inductive LinearInnerOut : Type where
  | mismatch
  | reachedEnd
  | matched
  | textOob
  | innerFuel
deriving DecidableEq, Repr

/-- The inner loop of linear_search (lib.rs lines 87-97): compare the
pattern against the text at candidate start iText.  As in the source,
the text is read before the end-of-text check, so overrunning the text
is an index panic rather than a clean rejection. -/
def linearInner (pattern text : List α) (iText : Nat) : Nat → Nat → LinearInnerOut
  | 0, _ => .innerFuel
  | fuel + 1, iPattern =>
    if h : iPattern < pattern.length then
      match text[iText + iPattern]? with
      | none => .textOob
      | some tc =>
        if tc ≠ pattern.get ⟨iPattern, h⟩ then .mismatch
        else if iText + iPattern = text.length then .reachedEnd
        else linearInner pattern text iText fuel (iPattern + 1)
    else .matched

/-- The outer loop of linear_search (lib.rs lines 84-101): iText runs
over 0..text.len(). -/
def linearOuter (pattern text : List α) : Nat → Nat → RRes (Option Nat)
  | 0, _ => .diverge
  | fuel + 1, iText =>
    if iText < text.length then
      match linearInner pattern text iText (pattern.length + 1) 0 with
      | .mismatch => linearOuter pattern text fuel (iText + 1)
      | .reachedEnd => .ok none
      | .matched => .ok (some iText)
      | .textOob => .panic .textIdx
      | .innerFuel => .diverge
    else .ok none

/-- linear_search (lib.rs lines 80-103). -/
def linear_search (pattern text : List α) : RRes (Option Nat) :=
  linearOuter pattern text (text.length + 1) 0

/-- The inner while-loop of border_table (lib.rs lines 122-125):
follow the border chain, b = borders[b], while pattern[b] differs from
c and b is nonzero. -/
def btChain (pattern : List α) (borders : List Nat) (c : α) : Nat → Nat → RRes Nat
  | 0, _ => .diverge
  | fuel + 1, b =>
    match pattern[b]? with
    | none => .panic .patIdx
    | some pb =>
      if pb ≠ c ∧ b ≠ 0 then
        match borders[b]? with
        | none => .panic .bordersIdx
        | some b2 => btChain pattern borders c fuel b2
      else .ok b

/-- The outer for-loop of border_table (lib.rs line 117): the Rust
iterator pattern.iter().skip(1).enumerate().skip(1) yields the pairs
(i, pattern[i + 1]) for i from 1 to pattern.len() - 2, so the
character paired with index i is pattern[i + 1]. -/
def btLoop (pattern : List α) : Nat → Nat → List Nat → RRes (List Nat)
  | 0, _, _ => .diverge
  | fuel + 1, i, borders =>
    if h : i + 1 < pattern.length then
      let c := pattern.get ⟨i + 1, h⟩
      match borders[i]? with
      | none => .panic .bordersIdx
      | some b0 =>
        match btChain pattern borders c (b0 + 1) b0 with
        | .ok b =>
          match pattern[b]? with
          | none => .panic .patIdx
          | some pb =>
            btLoop pattern fuel (i + 1) (borders ++ [if pb = c then b + 1 else 0])
        | .panic k => .panic k
        | .diverge => .diverge
    else .ok borders

/-- border_table (lib.rs lines 105-137): push two zero entries, run
the loop, then assert_eq!(pattern.len(), borders.len()). -/
def border_table (pattern : List α) : RRes (List Nat) :=
  match btLoop pattern (pattern.length + 1) 1 [0, 0] with
  | .ok borders =>
    if pattern.length = borders.length then .ok borders
    else .panic .assertFail
  | .panic k => .panic k
  | .diverge => .diverge

/-- The while-loop of kmp_search (lib.rs lines 145-168).  On mismatch
with p nonzero the source does t += p - borders[p] with usize
arithmetic; a debug build panics if borders[p] exceeds p. -/
def kmpLoop (pattern text : List α) (borders : List Nat) : Nat → Nat → Nat → RRes (Option Nat)
  | 0, _, _ => .diverge
  | fuel + 1, t, p =>
    if t + p < text.length then
      match text[t + p]? with
      | none => .panic .textIdx
      | some tc =>
        match pattern[p]? with
        | none => .panic .patIdx
        | some pc =>
          if tc = pc then
            if p + 1 = pattern.length then .ok (some t)
            else kmpLoop pattern text borders fuel t (p + 1)
          else if p = 0 then
            kmpLoop pattern text borders fuel (t + 1) 0
          else
            match borders[p]? with
            | none => .panic .bordersIdx
            | some bp =>
              if p < bp then .panic .subUnderflow
              else kmpLoop pattern text borders fuel (t + (p - bp)) bp
    else .ok none

/-- kmp_search (lib.rs lines 139-170). -/
def kmp_search (pattern text : List α) (borders : List Nat) : RRes (Option Nat) :=
  kmpLoop pattern text borders ((text.length + 1) * (pattern.length + 1) + 1) 0 0

/-- The for-loop of bad_character_table (lib.rs lines 182-184): write
pattern.len() - 1 - i at index c for each byte c at position i;
writing panics when the index is outside the table. -/
def bctLoop (m : Nat) : List Nat → Nat → List Nat → RRes (List Nat)
  | table, _, [] => .ok table
  | table, i, c :: rest =>
    if c < table.length then
      bctLoop m (table.set c (m - 1 - i)) (i + 1) rest
    else .panic .tableIdx

/-- bad_character_table (lib.rs lines 172-187): the default table is
built from the range 0..std::u8::MAX, which has 255 elements, so the
table has 255 entries. -/
def bad_character_table (pattern : List Nat) : RRes (List Nat) :=
  bctLoop pattern.length (List.replicate 255 pattern.length) 0 pattern

/-- Outcome of the inner backward comparison loop of bmh_search. -/
inductive BmhInnerOut : Type where
  | found (t : Nat)
  | mismatchAt (p : Nat)
  | textOob
  | patOob
deriving DecidableEq, Repr

/-- The inner while-loop of bmh_search (lib.rs lines 202-210):
compare backward from offset p while text[t+p] equals pattern[p]; at
offset 0 a successful comparison is a full match.  The source reads
text[t+p] and then pattern[p] in the loop condition each round. -/
def bmhInner (pattern text : List Nat) (t : Nat) : Nat → BmhInnerOut
  | 0 =>
    match text[t + 0]?, pattern[0]? with
    | none, _ => .textOob
    | some _, none => .patOob
    | some tc, some pc => if tc = pc then .found t else .mismatchAt 0
  | q + 1 =>
    match text[t + (q + 1)]?, pattern[q + 1]? with
    | none, _ => .textOob
    | some _, none => .patOob
    | some tc, some pc =>
      if tc = pc then bmhInner pattern text t q else .mismatchAt (q + 1)

/-- The outer while-loop of bmh_search (lib.rs lines 198-216). -/
def bmhOuter (pattern text table : List Nat) : Nat → Nat → RRes (Option Nat)
  | 0, _ => .diverge
  | fuel + 1, t =>
    if t + pattern.length ≤ text.length then
      match bmhInner pattern text t (pattern.length - 1) with
      | .found r => .ok (some r)
      | .textOob => .panic .textIdx
      | .patOob => .panic .patIdx
      | .mismatchAt p =>
        match text[t + p]? with
        | none => .panic .textIdx
        | some tc =>
          match table[tc]? with
          | none => .panic .tableIdx
          | some shift => bmhOuter pattern text table fuel (t + shift)
    else .ok none

/-- bmh_search (lib.rs lines 189-218): an empty pattern is rejected
up front. -/
def bmh_search (pattern text : List Nat) (table : List Nat) : RRes (Option Nat) :=
  if pattern.length = 0 then .ok none
  else bmhOuter pattern text table (text.length + 1) 0

/-- The state of a KMPPattern handle (lib.rs lines 1-4): the wrapped
pattern and the lazily cached border table. -/
structure KMPPatternState (α : Type) where
  pattern : List α
  borders : Option (List Nat)

/-- KMPPattern::new (lib.rs lines 9-14). -/
def KMPPattern.new (pattern : List α) : KMPPatternState α :=
  ⟨pattern, none⟩

/-- KMPPattern::kmp (lib.rs lines 20-34): build and store the border
table on first use, then search; returns the result and the updated
handle state.  A panic in border_table propagates and leaves the
cache slot empty. -/
def KMPPattern.kmp (s : KMPPatternState α) (text : List α) :
    RRes (Option Nat) × KMPPatternState α :=
  match s.borders with
  | none =>
    match border_table s.pattern with
    | .ok b => (kmp_search s.pattern text b, ⟨s.pattern, some b⟩)
    | .panic k => (.panic k, s)
    | .diverge => (.diverge, s)
  | some b => (kmp_search s.pattern text b, s)

/-- The state of a BMHPattern handle (lib.rs lines 37-42), restricted
to the fields its bmh method uses: the byte pattern and the lazily
cached bad character table. -/
structure BMHPatternState where
  pattern : List Nat
  badCharTable : Option (List Nat)

/-- BMHPattern::new (lib.rs lines 45-55). -/
def BMHPattern.new (pattern : List Nat) : BMHPatternState :=
  ⟨pattern, none⟩

/-- BMHPattern::bmh (lib.rs lines 65-77): build and store the bad
character table on first use, then search. -/
def BMHPattern.bmh (s : BMHPatternState) (text : List Nat) :
    RRes (Option Nat) × BMHPatternState :=
  match s.badCharTable with
  | none =>
    match bad_character_table s.pattern with
    | .ok tbl => (bmh_search s.pattern text tbl, ⟨s.pattern, some tbl⟩)
    | .panic k => (.panic k, s)
    | .diverge => (.diverge, s)
  | some tbl => (bmh_search s.pattern text tbl, s)

/-- The stateless composite the handle is claimed to implement for
kmp: build the border table, then search with it. -/
def kmpPipeline (pattern text : List α) : RRes (Option Nat) :=
  match border_table pattern with
  | .ok b => kmp_search pattern text b
  | .panic k => .panic k
  | .diverge => .diverge

/-- The stateless composite the handle is claimed to implement for
bmh: build the bad character table, then search with it. -/
def bmhPipeline (pattern text : List Nat) : RRes (Option Nat) :=
  match bad_character_table pattern with
  | .ok tbl => bmh_search pattern text tbl
  | .panic k => .panic k
  | .diverge => .diverge

/-- Cache soundness for a KMPPattern handle: whatever is in the cache
slot is exactly what border_table returns for the wrapped pattern. -/
def KMPInv (s : KMPPatternState α) : Prop :=
  ∀ b, s.borders = some b → border_table s.pattern = RRes.ok b

/-- Cache soundness for a BMHPattern handle. -/
def BMHInv (s : BMHPatternState) : Prop :=
  ∀ tbl, s.badCharTable = some tbl → bad_character_table s.pattern = RRes.ok tbl

/-- The specification notion of the pattern occurring at position i of
the text. -/
def occursAt (pattern text : List α) (i : Nat) : Prop :=
  i + pattern.length ≤ text.length ∧ (text.drop i).take pattern.length = pattern

instance occursAtDecidable (pattern text : List α) (i : Nat) :
    Decidable (occursAt pattern text i) :=
  inferInstanceAs (Decidable (_ ∧ _))

/-- Length of the list inside an RRes, when there is one. -/
def rresLength (r : RRes (List Nat)) : Option Nat :=
  match r with
  | .ok l => some l.length
  | _ => none

/-- Entry i of the list inside an RRes, when there is one. -/
def rresLookup (r : RRes (List Nat)) (i : Nat) : Option Nat :=
  match r with
  | .ok l => l[i]?
  | _ => none

/-- Invariant of the partially built border list: every stored entry
is at most its index minus one (so entry 0 is 0 and the border chain
strictly descends). -/
def GoodBorders (borders : List Nat) : Prop :=
  ∀ j x, borders[j]? = some x → x ≤ j - 1

/-- C1: the claim of cross-algorithm agreement fails on the code.  For
pattern aab (encoded [0, 0, 1]) and text aaab (encoded [0, 0, 0, 1]),
linear_search finds the occurrence at index 1, but kmp_search driven
by the table that border_table builds for this pattern reports no
match: the table construction pairs index i with pattern[i + 1], so
the entry for the prefix aa is 0 instead of 1, and the mismatch shift
skips over the occurrence. -/
theorem c1_kmp_disagrees_with_linear :
    linear_search ([0, 0, 1] : List Nat) [0, 0, 0, 1] = .ok (some 1) ∧
    border_table ([0, 0, 1] : List Nat) = .ok [0, 0, 0] ∧
    kmp_search ([0, 0, 1] : List Nat) [0, 0, 0, 1] [0, 0, 0] = .ok none := by
  decide

/-- C2: the border-table correctness claim fails on the code.  For
pattern aabaa (encoded [0, 0, 1, 0, 0]) the code returns
[0, 0, 0, 1, 2], not the claimed [0, 0, 1, 0, 1, 2] of longest proper
borders. -/
theorem c2_border_table_wrong_on_aabaa :
    border_table ([0, 0, 1, 0, 0] : List Nat) = .ok [0, 0, 0, 1, 2] ∧
    ([0, 0, 0, 1, 2] : List Nat) ≠ [0, 0, 1, 0, 1, 2] := by
  decide

/-- C3: the no-out-of-range-indexing claim fails on the code.  With
pattern [0, 1] and text [0], linear_search reads text[1], one past the
end, because the end-of-text check sits after the read; with an empty
pattern and a nonempty text, kmp_search reads pattern[0] out of
range. -/
theorem c3_oob_reads_happen :
    linear_search ([0, 1] : List Nat) [0] = .panic .textIdx ∧
    kmp_search ([] : List Nat) [0] [] = .panic .patIdx := by
  decide

/-- C4: the termination claim fails on the code.  For byte pattern ba
(encoded [1, 0]) and text aa (encoded [0, 0]), bad_character_table
maps the mismatching text byte 0 to shift 0 (its rightmost occurrence
is the last pattern position), so bmh_search never advances the
window: the outer loop returns to the identical state for every fuel
budget, i.e. it runs forever. -/
theorem c4_bmh_diverges :
    bad_character_table [1, 0] = .ok (0 :: 1 :: List.replicate 253 2) ∧
    bmh_search [1, 0] [0, 0] (0 :: 1 :: List.replicate 253 2) = .diverge ∧
    ∀ fuel, bmhOuter [1, 0] [0, 0] (0 :: 1 :: List.replicate 253 2) fuel 0 = .diverge := by
  refine ⟨by decide, by decide, ?_⟩
  intro fuel
  induction fuel with
  | zero => rfl
  | succ n ih =>
    calc bmhOuter [1, 0] [0, 0] (0 :: 1 :: List.replicate 253 2) (n + 1) 0
        = bmhOuter [1, 0] [0, 0] (0 :: 1 :: List.replicate 253 2) n 0 := rfl
      _ = .diverge := ih

/-- C6: the bad-character-table claim fails on the code.  For pattern
abca (bytes [97, 98, 99, 97]) the individual shifts match the claim
(97 maps to 0, 98 to 2, 99 to 1, e.g. byte 100 to 4), but the table
has only 255 entries, not 256: the source iterates over the exclusive
range 0..u8::MAX, so byte 255 has no entry, and building the table for
a pattern containing byte 255 panics on an out-of-range write. -/
theorem c6_table_size_255 :
    rresLength (bad_character_table [97, 98, 99, 97]) = some 255 ∧
    rresLookup (bad_character_table [97, 98, 99, 97]) 97 = some 0 ∧
    rresLookup (bad_character_table [97, 98, 99, 97]) 98 = some 2 ∧
    rresLookup (bad_character_table [97, 98, 99, 97]) 99 = some 1 ∧
    rresLookup (bad_character_table [97, 98, 99, 97]) 100 = some 4 ∧
    rresLookup (bad_character_table [97, 98, 99, 97]) 255 = none ∧
    bad_character_table [255] = .panic .tableIdx := by
  decide

/-- C7: the first-occurrence claim fails on the code.  Pattern aab
(encoded [0, 0, 1]) occurs in text aaab (encoded [0, 0, 0, 1]) at
position 1, and linear_search returns it, but kmp_search with the
table built by border_table returns no match at all. -/
theorem c7_kmp_misses_occurrence :
    occursAt ([0, 0, 1] : List Nat) [0, 0, 0, 1] 1 ∧
    linear_search ([0, 0, 1] : List Nat) [0, 0, 0, 1] = .ok (some 1) ∧
    border_table ([0, 0, 1] : List Nat) = .ok [0, 0, 0] ∧
    kmp_search ([0, 0, 1] : List Nat) [0, 0, 0, 1] [0, 0, 0] = .ok none := by
  decide

/-- C5 counterexample: searching the empty text with the empty pattern
via linear_search yields not-found, not index 0, and the KMP path
cannot even build its table for the empty pattern: the final length
assertion of border_table fails. -/
theorem c5_counterexample :
    linear_search ([] : List Nat) ([] : List Nat) = .ok none ∧
    linear_search ([] : List Nat) ([] : List Nat) ≠ .ok (some 0) ∧
    border_table ([] : List Nat) = .panic .assertFail := by
  decide

/-- C8 counterexample: border_table on the empty pattern does not
return an empty table, and on a one-element pattern does not return
[0, 0]; in both cases the table starts with two zero entries, so the
final assert_eq!(pattern.len(), borders.len()) fails and the function
panics instead of returning. -/
theorem c8_counterexample :
    border_table ([] : List Nat) ≠ .ok [] ∧
    border_table ([0] : List Nat) ≠ .ok [0, 0] ∧
    border_table ([] : List Nat) = .panic .assertFail ∧
    border_table ([0] : List Nat) = .panic .assertFail := by
  decide

/-- C5 amended: with the empty pattern, linear_search returns index 0
for every nonempty text but not-found for the empty text; the KMP path
never returns index 0, since border_table on the empty pattern fails
its length assertion, and kmp_search with the empty pattern returns
not-found on the empty text and panics reading pattern[0] on any
nonempty text, whatever border table it is given. -/
theorem c5_empty_pattern_amended :
    (∀ (text : List Nat), text ≠ [] → linear_search [] text = .ok (some 0)) ∧
    linear_search ([] : List Nat) ([] : List Nat) = .ok none ∧
    border_table ([] : List Nat) = .panic .assertFail ∧
    (∀ (text borders : List Nat), text ≠ [] →
      kmp_search [] text borders = .panic .patIdx) ∧
    (∀ (borders : List Nat), kmp_search ([] : List Nat) [] borders = .ok none) := by
  refine ⟨?_, by decide, by decide, ?_, ?_⟩
  · intro text h
    match text with
    | [] => exact absurd rfl h
    | a :: l => simp [linear_search, linearOuter, linearInner]
  · intro text borders h
    match text with
    | [] => exact absurd rfl h
    | a :: l => simp [kmp_search, kmpLoop]
  · intro borders
    simp [kmp_search, kmpLoop]

/-- C5 witness: the amended statement applied at concrete inputs. -/
theorem c5_witness :
    linear_search ([] : List Nat) [5] = .ok (some 0) ∧
    kmp_search ([] : List Nat) [5] [7] = .panic .patIdx :=
  ⟨c5_empty_pattern_amended.1 [5] (by decide),
   c5_empty_pattern_amended.2.2.2.1 [5] [7] (by decide)⟩

/-- With a well-formed border list the border chain terminates within
its starting fuel, panics nowhere, and lands at or below its starting
index. -/
lemma btChain_ok (pattern : List α) (borders : List Nat) (c : α)
    (good : GoodBorders borders) :
    ∀ fuel b, b < fuel → b < pattern.length → b < borders.length →
      ∃ bf, btChain pattern borders c fuel b = .ok bf ∧ bf ≤ b := by
  intro fuel
  induction fuel with
  | zero =>
    intro b hb hbp hbb
    exact absurd hb (Nat.not_lt_zero b)
  | succ f ih =>
    intro b hbf hbp hbb
    have hpb : pattern[b]? = some pattern[b] := List.getElem?_eq_getElem hbp
    by_cases hcond : pattern[b] ≠ c ∧ b ≠ 0
    · have hbB : borders[b]? = some borders[b] := List.getElem?_eq_getElem hbb
      have hb2 : borders[b] ≤ b - 1 := good b borders[b] hbB
      have hbne : b ≠ 0 := hcond.2
      obtain ⟨bf, hrun, hle⟩ := ih borders[b] (by omega) (by omega) (by omega)
      refine ⟨bf, ?_, by omega⟩
      simp only [btChain, hpb]
      rw [if_pos hcond]
      simp only [hbB]
      exact hrun
    · refine ⟨b, ?_, le_refl b⟩
      simp only [btChain, hpb]
      rw [if_neg hcond]

/-- With enough fuel, a well-formed border list of length i + 1 and
the loop index at i, the border-table loop runs to completion and the
final list is as long as the pattern. -/
lemma btLoop_ok (pattern : List α) :
    ∀ fuel i borders, 1 ≤ i → i + 1 ≤ pattern.length →
      borders.length = i + 1 → GoodBorders borders →
      pattern.length ≤ fuel + i →
      ∃ out, btLoop pattern fuel i borders = .ok out ∧ out.length = pattern.length := by
  intro fuel
  induction fuel with
  | zero =>
    intro i borders h1 h2 hlen good hfuel
    omega
  | succ f ih =>
    intro i borders h1 h2 hlen good hfuel
    by_cases hg : i + 1 < pattern.length
    · have hib : i < borders.length := by omega
      have hbB : borders[i]? = some borders[i] := List.getElem?_eq_getElem hib
      have hb0 : borders[i] ≤ i - 1 := good i borders[i] hbB
      obtain ⟨bf, hchain, hbfle⟩ :=
        btChain_ok pattern borders (pattern.get ⟨i + 1, hg⟩) good (borders[i] + 1) borders[i]
          (by omega) (by omega) (by omega)
      have hbfp : bf < pattern.length := by omega
      have hpbf : pattern[bf]? = some pattern[bf] := List.getElem?_eq_getElem hbfp
      have hvle : (if pattern[bf] = pattern.get ⟨i + 1, hg⟩ then bf + 1 else 0) ≤ i := by
        split <;> omega
      have hlen2 :
          (borders ++ [if pattern[bf] = pattern.get ⟨i + 1, hg⟩ then bf + 1 else 0]).length =
            (i + 1) + 1 := by
        simp [hlen]
      have good2 :
          GoodBorders (borders ++ [if pattern[bf] = pattern.get ⟨i + 1, hg⟩ then bf + 1 else 0]) := by
        intro j x hj
        rw [List.getElem?_append] at hj
        rcases lt_or_ge j borders.length with hjl | hjr
        · rw [if_pos hjl] at hj
          exact good j x hj
        · rw [if_neg (by omega)] at hj
          rcases hd : j - borders.length with _ | d
        
          · rw [hd] at hj
            simp only [List.getElem?_cons_zero, Option.some.injEq] at hj
            omega
          · rw [hd] at hj
            simp at hj
      obtain ⟨out, hrun, hout⟩ :=
        ih (i + 1) (borders ++ [if pattern[bf] = pattern.get ⟨i + 1, hg⟩ then bf + 1 else 0])
          (by omega) (by omega) hlen2 good2 (by omega)
      refine ⟨out, ?_, hout⟩
      simp only [btLoop, hbB, hchain, hpbf]
      rw [dif_pos hg]
      exact hrun
    · have hieq : i + 1 = pattern.length := by omega
      refine ⟨borders, ?_, by omega⟩
      simp only [btLoop]
      rw [dif_neg hg]

/-- For every pattern of length at least two, border_table runs to
completion and returns a table as long as the pattern. -/
lemma border_table_ok (pattern : List α) (h : 2 ≤ pattern.length) :
    ∃ out, border_table pattern = .ok out ∧ out.length = pattern.length := by
  have good0 : GoodBorders [0, 0] := by
    intro j x hj
    match j with
    | 0 => simp at hj; omega
    | 1 => simp at hj; omega
    | j + 2 => simp at hj
  obtain ⟨out, hrun, hlen⟩ :=
    btLoop_ok pattern (pattern.length + 1) 1 [0, 0] (le_refl 1) h rfl good0 (by omega)
  refine ⟨out, ?_, hlen⟩
  simp only [border_table, hrun]
  rw [if_pos hlen.symm]

/-- C8 amended: for every pattern of length at least 2, border_table
returns a table whose length equals the length of the pattern; for
patterns of length 0 or 1 the function always starts the table with
two zero entries, so its own final length assertion fails and it
panics instead of returning a table. -/
theorem c8_border_table_length_amended :
    (∀ (pattern : List Nat), 2 ≤ pattern.length →
      ∃ out, border_table pattern = .ok out ∧ out.length = pattern.length) ∧
    border_table ([] : List Nat) = .panic .assertFail ∧
    border_table ([0] : List Nat) = .panic .assertFail :=
  ⟨fun pattern h => border_table_ok pattern h, by decide, by decide⟩

/-- C8 witness: the amended statement applied at a concrete pattern of
length two. -/
theorem c8_witness :
    2 ≤ ([0, 1] : List Nat).length ∧
    ∃ out, border_table ([0, 1] : List Nat) = .ok out ∧
      out.length = ([0, 1] : List Nat).length :=
  ⟨by decide, c8_border_table_length_amended.1 [0, 1] (by decide)⟩

/-- When the window fits (t + m ≤ n) and the starting offset is inside
the pattern, the backward comparison loop of bmh_search reads only in
bounds: it ends in a full match or a mismatch at an offset no larger
than where it started. -/
lemma bmhInner_in_bounds (pattern text : List Nat) (t : Nat) :
    ∀ p, p < pattern.length → t + pattern.length ≤ text.length →
      (∃ r, bmhInner pattern text t p = .found r) ∨
      (∃ q, bmhInner pattern text t p = .mismatchAt q ∧ q ≤ p) := by
  intro p
  induction p with
  | zero =>
    intro hp ht
    have htx : t + 0 < text.length := by omega
    have h1 : text[t + 0]? = some text[t + 0] := List.getElem?_eq_getElem htx
    have h2 : pattern[0]? = some pattern[0] := List.getElem?_eq_getElem hp
    simp only [bmhInner, h1, h2]
    by_cases hc : text[t + 0] = pattern[0]
    · rw [if_pos hc]
      exact Or.inl ⟨t, rfl⟩
    · rw [if_neg hc]
      exact Or.inr ⟨0, rfl, le_refl 0⟩
  | succ q ih =>
    intro hp ht
    have htx : t + (q + 1) < text.length := by omega
    have h1 : text[t + (q + 1)]? = some text[t + (q + 1)] := List.getElem?_eq_getElem htx
    have h2 : pattern[q + 1]? = some pattern[q + 1] := List.getElem?_eq_getElem hp
    simp only [bmhInner, h1, h2]
    by_cases hc : text[t + (q + 1)] = pattern[q + 1]
    · rw [if_pos hc]
      rcases ih (by omega) ht with ⟨r, hr⟩ | ⟨q2, hq2, hle⟩
      · exact Or.inl ⟨r, hr⟩
      · exact Or.inr ⟨q2, hq2, by omega⟩
    · rw [if_neg hc]
      exact Or.inr ⟨q + 1, rfl, le_refl (q + 1)⟩

/-- For a nonempty pattern, the outer loop of bmh_search never panics
on a text or pattern read, whatever fuel, start position and table it
is given: the window guard and the inner-loop bound keep all text and
pattern indices in range (only a table lookup can panic). -/
lemma bmhOuter_in_bounds (pattern text table : List Nat) (hp : pattern ≠ []) :
    ∀ fuel t, bmhOuter pattern text table fuel t ≠ .panic .textIdx ∧
      bmhOuter pattern text table fuel t ≠ .panic .patIdx := by
  have hm : 0 < pattern.length := List.length_pos.mpr hp
  intro fuel
  induction fuel with
  | zero =>
    intro t
    exact ⟨by simp [bmhOuter], by simp [bmhOuter]⟩
  | succ n ih =>
    intro t
    by_cases hg : t + pattern.length ≤ text.length
    · rcases bmhInner_in_bounds pattern text t (pattern.length - 1) (by omega) hg with
        ⟨r, hr⟩ | ⟨q, hq, hqle⟩
      · constructor <;> simp [bmhOuter, hg, hr]
      · have htq : t + q < text.length := by omega
        have h1 : text[t + q]? = some text[t + q] := List.getElem?_eq_getElem htq
        rcases htbl : table[text[t + q]]? with _ | shift
        · constructor <;> simp [bmhOuter, hg, hq, h1, htbl]
        · have hstep : bmhOuter pattern text table (n + 1) t =
              bmhOuter pattern text table n (t + shift) := by
            simp only [bmhOuter, hq, h1, htbl]
            rw [if_pos hg]
          rw [hstep]
          exact ih (t + shift)
    · constructor <;> simp [bmhOuter, hg]

/-- C10: for every nonempty byte pattern, every text and every table,
bmh_search never indexes the text or the pattern out of range: the
window guard t + m ≤ n together with the inner loop starting at
p = m - 1 and only decreasing keeps every text access below the text
length and every pattern access below the pattern length. -/
theorem c10_bmh_in_bounds (pattern text table : List Nat) (hp : pattern ≠ []) :
    bmh_search pattern text table ≠ .panic .textIdx ∧
    bmh_search pattern text table ≠ .panic .patIdx := by
  have h0 : ¬ pattern.length = 0 := by
    have := List.length_pos.mpr hp
    omega
  unfold bmh_search
  rw [if_neg h0]
  exact bmhOuter_in_bounds pattern text table hp (text.length + 1) 0

/-- C10 witness: the theorem applied at a concrete nonempty pattern,
text and table. -/
theorem c10_witness :
    bmh_search [7] [7, 7] [3] ≠ .panic .textIdx ∧
    bmh_search [7] [7, 7] [3] ≠ .panic .patIdx :=
  c10_bmh_in_bounds [7] [7, 7] [3] (by decide)

/-- C9: a handle wrapping a fixed pattern behaves exactly like the
stateless build-table-then-search composite on every call, for both
the kmp and the bmh operation, under the cache-soundness invariant
(which holds for a fresh handle and is preserved by every call): the
result equals the composite, the wrapped pattern never changes, a
successful table build is stored in the cache slot, and a call on an
already-filled cache leaves the state untouched. -/
theorem c9_handle_memoization :
    (∀ (s : KMPPatternState Nat) (text : List Nat), KMPInv s →
      (KMPPattern.kmp s text).1 = kmpPipeline s.pattern text ∧
      ((KMPPattern.kmp s text).2).pattern = s.pattern ∧
      KMPInv (KMPPattern.kmp s text).2 ∧
      (∀ b, border_table s.pattern = RRes.ok b →
        ((KMPPattern.kmp s text).2).borders = some b) ∧
      (s.borders ≠ none → (KMPPattern.kmp s text).2 = s)) ∧
    (∀ (s : BMHPatternState) (text : List Nat), BMHInv s →
      (BMHPattern.bmh s text).1 = bmhPipeline s.pattern text ∧
      ((BMHPattern.bmh s text).2).pattern = s.pattern ∧
      BMHInv (BMHPattern.bmh s text).2 ∧
      (∀ tbl, bad_character_table s.pattern = RRes.ok tbl →
        ((BMHPattern.bmh s text).2).badCharTable = some tbl) ∧
      (s.badCharTable ≠ none → (BMHPattern.bmh s text).2 = s)) := by
  constructor
  · rintro ⟨pat, bo⟩ text hinv
    rcases bo with _ | b
    · rcases hbt : border_table pat with b2 | k | _
      · have hst : (KMPPattern.kmp ⟨pat, none⟩ text).2 = ⟨pat, some b2⟩ := by
          simp [KMPPattern.kmp, hbt]
        refine ⟨by simp [KMPPattern.kmp, kmpPipeline, hbt], by rw [hst], ?_, ?_, ?_⟩
        · rw [hst]
          intro b3 hb3
          have hb : b2 = b3 := Option.some.inj hb3
          rw [← hb]
          exact hbt
        · intro b3 hb3
          have hb : b2 = b3 := by injection hb3
          rw [hst, ← hb]
        · intro hne
          exact absurd rfl hne
      · have hst : (KMPPattern.kmp ⟨pat, none⟩ text).2 = ⟨pat, none⟩ := by
          simp [KMPPattern.kmp, hbt]
        refine ⟨by simp [KMPPattern.kmp, kmpPipeline, hbt], by rw [hst], ?_, ?_, ?_⟩
        · rw [hst]
          exact hinv
        · intro b3 hb3
          exact RRes.noConfusion hb3
        · intro hne
          exact absurd rfl hne
      · have hst : (KMPPattern.kmp ⟨pat, none⟩ text).2 = ⟨pat, none⟩ := by
          simp [KMPPattern.kmp, hbt]
        refine ⟨by simp [KMPPattern.kmp, kmpPipeline, hbt], by rw [hst], ?_, ?_, ?_⟩
        · rw [hst]
          exact hinv
        · intro b3 hb3
          exact RRes.noConfusion hb3
        · intro hne
          exact absurd rfl hne
    · have hbt : border_table pat = RRes.ok b := hinv b rfl
      have hst : (KMPPattern.kmp ⟨pat, some b⟩ text).2 = ⟨pat, some b⟩ := by
        simp [KMPPattern.kmp]
      refine ⟨by simp [KMPPattern.kmp, kmpPipeline, hbt], by rw [hst], ?_, ?_, ?_⟩
      · rw [hst]
        exact hinv
      · intro b3 hb3
        rw [hbt] at hb3
        have hb : b = b3 := by injection hb3
        rw [hst, ← hb]
      · intro hne
        exact hst
  · rintro ⟨pat, bo⟩ text hinv
    rcases bo with _ | tbl
    · rcases hbt : bad_character_table pat with tbl2 | k | _
      · have hst : (BMHPattern.bmh ⟨pat, none⟩ text).2 = ⟨pat, some tbl2⟩ := by
          simp [BMHPattern.bmh, hbt]
        refine ⟨by simp [BMHPattern.bmh, bmhPipeline, hbt], by rw [hst], ?_, ?_, ?_⟩
        · rw [hst]
          intro t3 ht3
          have ht : tbl2 = t3 := Option.some.inj ht3
          rw [← ht]
          exact hbt
        · intro t3 ht3
          have ht : tbl2 = t3 := by injection ht3
          rw [hst, ← ht]
        · intro hne
          exact absurd rfl hne
      · have hst : (BMHPattern.bmh ⟨pat, none⟩ text).2 = ⟨pat, none⟩ := by
          simp [BMHPattern.bmh, hbt]
        refine ⟨by simp [BMHPattern.bmh, bmhPipeline, hbt], by rw [hst], ?_, ?_, ?_⟩
        · rw [hst]
          exact hinv
        · intro t3 ht3
          exact RRes.noConfusion ht3
        · intro hne
          exact absurd rfl hne
      · have hst : (BMHPattern.bmh ⟨pat, none⟩ text).2 = ⟨pat, none⟩ := by
          simp [BMHPattern.bmh, hbt]
        refine ⟨by simp [BMHPattern.bmh, bmhPipeline, hbt], by rw [hst], ?_, ?_, ?_⟩
        · rw [hst]
          exact hinv
        · intro t3 ht3
          exact RRes.noConfusion ht3
        · intro hne
          exact absurd rfl hne
    · have hbt : bad_character_table pat = RRes.ok tbl := hinv tbl rfl
      have hst : (BMHPattern.bmh ⟨pat, some tbl⟩ text).2 = ⟨pat, some tbl⟩ := by
        simp [BMHPattern.bmh]
      refine ⟨by simp [BMHPattern.bmh, bmhPipeline, hbt], by rw [hst], ?_, ?_, ?_⟩
      · rw [hst]
        exact hinv
      · intro t3 ht3
        rw [hbt] at ht3
        have ht : tbl = t3 := by injection ht3
        rw [hst, ← ht]
      · intro hne
        exact hst

/-- C9 witness: the theorem applied to fresh handles for concrete
patterns and texts, with the invariant discharged. -/
theorem c9_witness :
    ((KMPPattern.kmp (KMPPattern.new ([0, 1] : List Nat)) [1, 0, 1]).1 =
        kmpPipeline (KMPPattern.new ([0, 1] : List Nat)).pattern [1, 0, 1] ∧
      ((KMPPattern.kmp (KMPPattern.new ([0, 1] : List Nat)) [1, 0, 1]).2).pattern =
        (KMPPattern.new ([0, 1] : List Nat)).pattern ∧
      KMPInv (KMPPattern.kmp (KMPPattern.new ([0, 1] : List Nat)) [1, 0, 1]).2 ∧
      (∀ b, border_table (KMPPattern.new ([0, 1] : List Nat)).pattern = RRes.ok b →
        ((KMPPattern.kmp (KMPPattern.new ([0, 1] : List Nat)) [1, 0, 1]).2).borders = some b) ∧
      ((KMPPattern.new ([0, 1] : List Nat)).borders ≠ none →
        (KMPPattern.kmp (KMPPattern.new ([0, 1] : List Nat)) [1, 0, 1]).2 =
          KMPPattern.new ([0, 1] : List Nat))) ∧
    ((BMHPattern.bmh (BMHPattern.new [2]) [2, 2]).1 =
        bmhPipeline (BMHPattern.new [2]).pattern [2, 2] ∧
      ((BMHPattern.bmh (BMHPattern.new [2]) [2, 2]).2).pattern =
        (BMHPattern.new [2]).pattern ∧
      BMHInv (BMHPattern.bmh (BMHPattern.new [2]) [2, 2]).2 ∧
      (∀ tbl, bad_character_table (BMHPattern.new [2]).pattern = RRes.ok tbl →
        ((BMHPattern.bmh (BMHPattern.new [2]) [2, 2]).2).badCharTable = some tbl) ∧
      ((BMHPattern.new [2]).badCharTable ≠ none →
        (BMHPattern.bmh (BMHPattern.new [2]) [2, 2]).2 = BMHPattern.new [2])) :=
  ⟨c9_handle_memoization.1 (KMPPattern.new [0, 1]) [1, 0, 1]
      (fun _ h => Option.noConfusion h),
   c9_handle_memoization.2 (BMHPattern.new [2]) [2, 2]
      (fun _ h => Option.noConfusion h)⟩
